import Mathlib

/-!
Verification development for the macro-recorder repository.

The Python sources under `src/macros/recorder.py`, `src/macros/playback.py`
and `src/utils/key_mappings.py` are shallowly embedded below.  Wall-clock
times are modelled as exact rationals (the code uses Python floats), the
event dictionaries as a structure whose fields mirror the JSON keys, and
the effectful calls into `pyautogui` as an explicit list of dispatched sink
commands.  A Python exception that escapes a function is modelled as an
explicit error value distinct from normal returns.
-/

/-- Event record produced by `MacroRecorder.record_event` and consumed by
`MacroPlayer.play_actions`.  The fields mirror the dictionary keys
`time`, `type`, `button`, `pos`, `scroll_direction` used in the source. -/
structure MacroAction where
  time : ℚ
  type : String
  button : String
  pos : Option (Int × Int) := none
  scroll_direction : Option (Int × Int) := none
deriving DecidableEq

/-- A command dispatched to the input sink (a `pyautogui` call in the
source): `click`, `keyDown`, `keyUp`, `moveTo`, vertical `scroll`,
horizontal `hscroll`. -/
inductive Dispatch where
  | click (x y : Int) (button : String)
  | keyDown (key : String)
  | keyUp (key : String)
  | moveTo (x y : Int)
  | scroll (amount : Int)
  | hscroll (amount : Int)
deriving DecidableEq

/-- The literal `key_map` dictionary of `src/utils/key_mappings.py`, kept in
source order (the Python dict literal contains repeated keys; construction
keeps the last binding for a repeated key). -/
def key_map : List (String × String) :=
  [ ( "Key.alt" , "alt" ),
    ( "Key.alt_l" , "altleft" ),
    ( "Key.alt_r" , "altright" ),
    ( "Key.ctrl" , "ctrl" ),
    ( "Key.ctrl_l" , "ctrlleft" ),
    ( "Key.ctrl_r" , "ctrlright" ),
    ( "Key.shift" , "shift" ),
    ( "Key.shift_l" , "shiftleft" ),
    ( "Key.shift_r" , "shiftright" ),
    ( "Key.cmd" , "win" ),
    ( "Key.cmd_l" , "winleft" ),
    ( "Key.cmd_r" , "winright" ),
    ( "Key.space" , "space" ),
    ( "Key.enter" , "enter" ),
    ( "Key.tab" , "tab" ),
    ( "Key.backspace" , "backspace" ),
    ( "Key.delete" , "del" ),
    ( "Key.esc" , "esc" ),
    ( "Key.caps_lock" , "capslock" ),
    ( "Key.f1" , "f1" ),
    ( "Key.f2" , "f2" ),
    ( "Key.f3" , "f3" ),
    ( "Key.f4" , "f4" ),
    ( "Key.f5" , "f5" ),
    ( "Key.f6" , "f6" ),
    ( "Key.f7" , "f7" ),
    ( "Key.f8" , "f8" ),
    ( "Key.f9" , "f9" ),
    ( "Key.f10" , "f10" ),
    ( "Key.f11" , "f11" ),
    ( "Key.f12" , "f12" ),
    ( "Key.print_screen" , "printscreen" ),
    ( "Key.scroll_lock" , "scrolllock" ),
    ( "Key.pause" , "pause" ),
    ( "Key.insert" , "insert" ),
    ( "Key.home" , "home" ),
    ( "Key.end" , "end" ),
    ( "Key.page_up" , "pageup" ),
    ( "Key.page_down" , "pagedown" ),
    ( "Key.up" , "up" ),
    ( "Key.down" , "down" ),
    ( "Key.left" , "left" ),
    ( "Key.right" , "right" ),
    ( "Key.num_lock" , "numlock" ),
    ( "Key.keypad_0" , "num0" ),
    ( "Key.keypad_1" , "num1" ),
    ( "Key.keypad_2" , "num2" ),
    ( "Key.keypad_3" , "num3" ),
    ( "Key.keypad_4" , "num4" ),
    ( "Key.keypad_5" , "num5" ),
    ( "Key.keypad_6" , "num6" ),
    ( "Key.keypad_7" , "num7" ),
    ( "Key.keypad_8" , "num8" ),
    ( "Key.keypad_9" , "num9" ),
    ( "Key.keypad_add" , "+" ),
    ( "Key.keypad_subtract" , "-" ),
    ( "Key.keypad_multiply" , "*" ),
    ( "Key.keypad_divide" , "/" ),
    ( "Key.keypad_decimal" , "." ),
    ( "Key.keypad_enter" , "enter" ),
    ( "Key.space" , "space" ),
    ( "Key.tab" , "tab" ),
    ( "Key.enter" , "enter" ),
    ( "Key.esc" , "esc" ),
    ( "Key.backspace" , "backspace" ),
    ( "Key.delete" , "delete" ),
    ( "Key.home" , "home" ),
    ( "Key.end" , "end" ),
    ( "Key.page_up" , "pageup" ),
    ( "Key.page_down" , "pagedown" ),
    ( "Key.ctrl_l" , "ctrlleft" ),
    ( "Key.ctrl_r" , "ctrlright" ),
    ( "Key.alt_l" , "altleft" ),
    ( "Key.alt_r" , "altright" ),
    ( "Key.shift_l" , "shiftleft" ),
    ( "Key.shift_r" , "shiftright" ),
    ( "\u0003" , "c" ),
    ( "\u0016" , "v" ),
    ( "\u0018" , "x" ),
    ( "\u0001" , "a" ) ]

/-- Python `dict.get(k, dflt)` over an association-list rendering of a dict
literal: the last binding for a key wins (repeated keys in the literal
override earlier ones), and a missing key yields the default. -/
def pyDictGet (m : List (String × String)) (k dflt : String) : String :=
  match m.reverse.find? (fun p => p.1 == k) with
  | some p => p.2
  | none => dflt

/-- Membership of `k` among the keys of an association list, the embedding
of the Python `k in dict` test. -/
def pyDictHasKey (m : List (String × String)) (k : String) : Prop :=
  k ∈ m.map Prod.fst

namespace MacroPlayer

/-- Hotkey that toggles pause during playback (`keyboard` library name). -/
def PAUSE_KEY : String := "pause"

/-- Distance covered by one recorded scroll notch. -/
def SCROLL_MULTIPLIER : Int := 120

/-- Embedding of `MacroPlayer.convert_key`: translate a pynput key string
to a PyAutoGUI key string via `key_map`, with the untranslated string as
the `dict.get` default. -/
def convert_key (button : String) : String :=
  pyDictGet key_map button button

/-- The local `button_map` dictionary of `MacroPlayer.handle_click`. -/
def button_map : List (String × String) :=
  [ ( "Button.left" , "left" ),
    ( "Button.right" , "right" ),
    ( "Button.middle" , "middle" ) ]

/-- Embedding of `MacroPlayer.handle_click`.  The `wait_if_paused` call is
a no-op in this single-threaded model (the pause flag is never set during
the modelled run).  Reading `action['pos'][0]` when `pos` is null raises,
modelled as an error value. -/
def handle_click (action : MacroAction) : Except String (List Dispatch) :=
  match action.pos with
  | none => .error "TypeError: pos is None"
  | some (x, y) => .ok [Dispatch.click x y (pyDictGet button_map action.button "left")]

/-- Embedding of `MacroPlayer.handle_key_down`. -/
def handle_key_down (action : MacroAction) : Except String (List Dispatch) :=
  .ok [Dispatch.keyDown (convert_key action.button)]

/-- Embedding of `MacroPlayer.handle_key_up`. -/
def handle_key_up (action : MacroAction) : Except String (List Dispatch) :=
  .ok [Dispatch.keyUp (convert_key action.button)]

/-- Embedding of `MacroPlayer.handle_scroll`: move to the recorded
position, then scroll vertically and/or horizontally by the recorded
deltas scaled by `SCROLL_MULTIPLIER`, each only when nonzero. -/
def handle_scroll (action : MacroAction) : Except String (List Dispatch) :=
  match action.pos, action.scroll_direction with
  | none, _ => .error "TypeError: pos is None"
  | _, none => .error "AttributeError: scroll_direction is None"
  | some (x, y), some (dx, dy) =>
    .ok ([Dispatch.moveTo x y]
      ++ (if dy ≠ 0 then [Dispatch.scroll (dy * SCROLL_MULTIPLIER)] else [])
      ++ (if dx ≠ 0 then [Dispatch.hscroll (dx * SCROLL_MULTIPLIER)] else []))

/-- The `action_handlers` dictionary built in `MacroPlayer.__init__`,
mapping the event `type` string to its handler. -/
def action_handlers (t : String) : Option (MacroAction → Except String (List Dispatch)) :=
  if t = "click" then some handle_click
  else if t = "keyDown" then some handle_key_down
  else if t = "keyUp" then some handle_key_up
  else if t = "scroll" then some handle_scroll
  else none

/-- Idealized sleep loop of `MacroPlayer.handle_delay`: while `slept` is
below `elapsed`, sleep `min 0.01 (elapsed - slept)` seconds and add the
slept amount (the code adds the measured wall time of the sleep; the model
takes the sleep to last exactly the requested duration).  `fuel` bounds
the number of iterations; the termination theorem below shows the fuel
chosen by `handle_delay` always suffices. -/
def sleepLoop (fuel : Nat) (slept elapsed : ℚ) : Option ℚ :=
  match fuel with
  | 0 => if slept < elapsed then none else some slept
  | f + 1 =>
    if slept < elapsed then
      sleepLoop f (slept + min (1 / 100) (elapsed - slept)) elapsed
    else some slept

/-- Fuel sufficient for `sleepLoop` starting from zero slept time. -/
def delayFuel (elapsed : ℚ) : Nat :=
  ⌈elapsed * 100⌉.toNat + 1

/-- Embedding of `MacroPlayer.handle_delay`: the difference of the two
stored `time` values is the wait duration; a negative difference raises
`ValueError` (modelled as an error value); otherwise the slice-wise sleep
loop runs to completion and the total slept time is returned. -/
def handle_delay (current_action next_action : MacroAction) : Except String ℚ :=
  let elapsed_time := next_action.time - current_action.time
  if elapsed_time < 0 then
    .error "ValueError: Unexpected ordering between next_action and current_action."
  else
    match sleepLoop (delayFuel elapsed_time) 0 elapsed_time with
    | some s => .ok s
    | none => .error "sleep loop ran out of fuel"

/-- Outcome of `MacroPlayer.play_actions`.  `completed` is the normal
fall-through return, `abortedByEscape` is the early `break` on the escape
sentinel, and `raised msg` models a Python exception escaping
`play_actions` (no caller in the repository catches it: the GUI thread
target `_play_macro` invokes `play_actions` without a try block). -/
inductive PlayOutcome where
  | completed
  | abortedByEscape
  | raised (msg : String)
deriving DecidableEq

/-- Result of a playback run: the sink commands dispatched, in order, and
how the run ended. -/
structure PlayResult where
  dispatched : List Dispatch
  outcome : PlayOutcome
deriving DecidableEq

/-- Loop body of `MacroPlayer.play_actions` specialized to the current
action `a`, the remaining actions `rest`, and the commands `acc` already
dispatched for earlier actions. -/
def playLoop (a : MacroAction) (rest : List MacroAction) (acc : List Dispatch) : PlayResult :=
  if a.button = "Key.esc" then ⟨acc, .abortedByEscape⟩
  else
    match action_handlers a.type with
    | none => ⟨acc, .raised ("No action handler found for type: " ++ a.type)⟩
    | some h =>
      match h a with
      | .error e => ⟨acc, .raised e⟩
      | .ok ds =>
        match rest with
        | [] => ⟨acc ++ ds, .completed⟩
        | b :: rest2 =>
          match handle_delay a b with
          | .error e => ⟨acc ++ ds, .raised e⟩
          | .ok _ => playLoop b rest2 (acc ++ ds)

/-- Embedding of `MacroPlayer.play_actions`: iterate the recorded actions
in order, stopping at the raw escape sentinel, raising on an unknown
`type`, dispatching via the matching handler, and sleeping the stored
inter-event delay before each subsequent action. -/
def play_actions (data : List MacroAction) : PlayResult :=
  match data with
  | [] => ⟨[], .completed⟩
  | a :: rest => playLoop a rest []

/-- Observable side effects of one `MacroPlayer.toggle_pause` call:
whether the pause condition was notified, whether the resume countdown
ran, and how many seconds the callback slept before returning. -/
structure ToggleEffects where
  notified : Bool
  countdown : Bool
  sleepSeconds : ℚ
deriving DecidableEq

/-- Embedding of `MacroPlayer.toggle_pause` as a function from the pause
flag to the new flag plus side effects: the flag flips; when the new state
is unpaused the waiting playback thread is notified and the countdown
timer runs; when the new state is paused the callback sleeps three seconds
before returning (the hotkey-bounce guard). -/
def toggle_pause (is_paused : Bool) : Bool × ToggleEffects :=
  let p := !is_paused
  if p then (p, ⟨false, false, 3⟩) else (p, ⟨true, true, 0⟩)

end MacroPlayer

/-- Event-type string constants of the `EventType` class in
`src/macros/recorder.py`. -/
def EventType.CLICK : String := "click"

/-- KeyDown event-type string constant. -/
def EventType.KEY_DOWN : String := "keyDown"

/-- KeyUp event-type string constant. -/
def EventType.KEY_UP : String := "keyUp"

/-- Scroll event-type string constant. -/
def EventType.SCROLL : String := "scroll"

namespace MacroRecorder

/-- Hotkey toggling pause during recording; pynput names stringify to the
`Key.` prefixed forms, so keys are modelled directly by those strings. -/
def PAUSE_KEY : String := "Key.pause"

/-- Key whose release ends the recording session. -/
def EXIT_KEY : String := "Key.esc"

/-- Keys ignored during recording (empty in the source). -/
def IGNORED_KEYS : List String := []

/-- State of a `MacroRecorder` instance: the fields set in `__init__`.
`pressed_keys` is the Python set, modelled as a duplicate-free list;
`exited` models whether `exit_event` has been set. -/
structure RecState where
  pressed_keys : List String
  saved_inputs : List MacroAction
  start_time : ℚ
  is_paused : Bool
  pause_start_time : Option ℚ
  total_pause_time : ℚ
  exited : Bool
deriving DecidableEq

/-- Fresh recorder state at the moment `run_listeners` stamps
`start_time`. -/
def initState (start_time : ℚ) : RecState :=
  ⟨[], [], start_time, false, none, 0, false⟩

/-- Embedding of `MacroRecorder.elapsed_time`: active recording time,
excluding pauses.  While paused the code reads `pause_start_time`, which
the callbacks keep non-null whenever `is_paused` holds; the `getD` default
stands in for the unreachable null read. -/
def elapsed_time (s : RecState) (now : ℚ) : ℚ :=
  if s.is_paused then s.pause_start_time.getD 0 - s.start_time - s.total_pause_time
  else now - s.start_time - s.total_pause_time

/-- Embedding of `MacroRecorder.stringify_key`.  Keys are already modelled
as their string forms, so stringification is the identity here; the
source's char/special-key distinction only affects which string is
produced. -/
def stringify_key (k : String) : String := k

/-- Embedding of `MacroRecorder.record_event`: build the event dictionary
and append it to `saved_inputs`. -/
def record_event (s : RecState) (event_type : String) (event_time : ℚ)
    (button : String) (pos : Option (Int × Int)) (scroll : Option (Int × Int)) : RecState :=
  { s with saved_inputs := s.saved_inputs ++ [⟨event_time, event_type, button, pos, scroll⟩] }

/-- Embedding of `MacroRecorder.toggle_pause` at wall-clock `now`: pausing
stamps `pause_start_time`; resuming adds the pause duration to
`total_pause_time` and clears the stamp. -/
def toggle_pause (s : RecState) (now : ℚ) : RecState :=
  if !s.is_paused then
    { s with pause_start_time := some now, is_paused := true }
  else
    { s with total_pause_time := s.total_pause_time + (now - s.pause_start_time.getD 0),
             pause_start_time := none,
             is_paused := false }

/-- Embedding of `MacroRecorder.on_press` at wall-clock `now`. -/
def on_press (s : RecState) (k : String) (now : ℚ) : RecState :=
  if k = PAUSE_KEY then toggle_pause s now
  else if s.is_paused || k ∈ IGNORED_KEYS || k ∈ s.pressed_keys then s
  else
    let s1 := { s with pressed_keys := s.pressed_keys ++ [k] }
    record_event s1 EventType.KEY_DOWN (elapsed_time s1 now) (stringify_key k) none none

/-- Embedding of `MacroRecorder.on_release` at wall-clock `now`: discard
while paused or for the pause key; otherwise drop the key from
`pressed_keys` when held, record the KeyUp, and signal exit when the key
is `EXIT_KEY`. -/
def on_release (s : RecState) (k : String) (now : ℚ) : RecState :=
  if s.is_paused || k ∈ IGNORED_KEYS || k = PAUSE_KEY then s
  else
    let s1 := if k ∈ s.pressed_keys then { s with pressed_keys := s.pressed_keys.erase k } else s
    let s2 := record_event s1 EventType.KEY_UP (elapsed_time s1 now) (stringify_key k) none none
    if k = EXIT_KEY then { s2 with exited := true } else s2

/-- Embedding of `MacroRecorder.on_click` at wall-clock `now`: only the
button-release edge records a Click event. -/
def on_click (s : RecState) (x y : Int) (button : String) (pressed : Bool) (now : ℚ) : RecState :=
  if s.is_paused then s
  else if !pressed then
    record_event s EventType.CLICK (elapsed_time s now) button (some (x, y)) none
  else s

/-- Embedding of `MacroRecorder.on_scroll` at wall-clock `now`. -/
def on_scroll (s : RecState) (x y dx dy : Int) (now : ℚ) : RecState :=
  if s.is_paused then s
  else
    record_event s EventType.SCROLL (elapsed_time s now) "mouse_wheel" (some (x, y)) (some (dx, dy))

/-- One raw input occurrence delivered by a pynput listener callback,
stamped with the wall-clock time at which the callback reads the clock. -/
inductive RawEvent where
  | press (k : String) (now : ℚ)
  | release (k : String) (now : ℚ)
  | click (x y : Int) (button : String) (pressed : Bool) (now : ℚ)
  | scroll (x y dx dy : Int) (now : ℚ)
deriving DecidableEq

/-- Dispatch one raw event to the matching recorder callback. -/
def step (s : RecState) : RawEvent → RecState
  | .press k now => on_press s k now
  | .release k now => on_release s k now
  | .click x y b p now => on_click s x y b p now
  | .scroll x y dx dy now => on_scroll s x y dx dy now

/-- Sequential model of the listener phase of `run_listeners`: callbacks
fire one at a time (pynput serializes them) until `exit_event` is set, at
which point the main thread proceeds to cleanup and stops the
listeners. -/
def run (s : RecState) : List RawEvent → RecState
  | [] => s
  | e :: es =>
    let s1 := step s e
    if s1.exited then s1 else run s1 es

/-- Embedding of `MacroRecorder.cleanup`: call `on_release` for every key
in a snapshot of `pressed_keys`, all at wall-clock `now`. -/
def cleanup (s : RecState) (now : ℚ) : RecState :=
  s.pressed_keys.foldl (fun st k => on_release st k now) s

end MacroRecorder

/-! Association-list dictionary lemmas. -/

/-- A successful `pyDictGet` lookup returns a value actually bound to the
key in the dictionary literal. -/
instance (m : List (String × String)) (k : String) : Decidable (pyDictHasKey m k) :=
  inferInstanceAs (Decidable (k ∈ m.map Prod.fst))

theorem pyDictGet_mem (m : List (String × String)) (k dflt : String)
    (h : pyDictHasKey m k) : (k, pyDictGet m k dflt) ∈ m := by
  unfold pyDictGet
  rcases hf : m.reverse.find? (fun p => p.1 == k) with _ | q
  · exfalso
    rcases List.mem_map.mp h with ⟨p, hp, hpk⟩
    have := (List.find?_eq_none.mp hf) p (List.mem_reverse.mpr hp)
    simp [hpk] at this
  · rw [hf]
    have hq1 : q.1 = k := by simpa using List.find?_some hf
    have hqm : q ∈ m := List.mem_reverse.mp (List.mem_of_find?_eq_some hf)
    rw [← hq1]
    simpa using hqm

/-- A `pyDictGet` lookup of a key absent from the dictionary returns the
default. -/
theorem pyDictGet_not_mem (m : List (String × String)) (k dflt : String)
    (h : ¬ pyDictHasKey m k) : pyDictGet m k dflt = dflt := by
  unfold pyDictGet
  rcases hf : m.reverse.find? (fun p => p.1 == k) with _ | q
  · rw [hf]
  · exfalso
    have hq1 : q.1 = k := by
      have := List.find?_some hf
      simpa using this
    have hqm : q ∈ m := List.mem_reverse.mp (List.mem_of_find?_eq_some hf)
    exact h (List.mem_map.mpr ⟨q, hqm, hq1⟩)

/-- C7: the key translation is a pure total function with an identity
fallback: when the captured identifier is a key of the static `key_map`
table, `convert_key` returns the table entry bound to it, and otherwise it
returns the identifier unchanged.  Determinism is inherent: `convert_key`
is a mathematical function of its argument. -/
theorem convert_key_table_or_identity (k : String) :
    (pyDictHasKey key_map k → (k, MacroPlayer.convert_key k) ∈ key_map) ∧
    (¬ pyDictHasKey key_map k → MacroPlayer.convert_key k = k) :=
  ⟨fun h => pyDictGet_mem key_map k k h,
   fun h => pyDictGet_not_mem key_map k k h⟩

/-- Witness for C7 at the mapped key Key.space and an unmapped key. -/
theorem convert_key_table_or_identity_witness :
    ( ( "Key.space" , MacroPlayer.convert_key "Key.space" ) ∈ key_map) ∧
    MacroPlayer.convert_key "not_a_known_key" = "not_a_known_key" :=
  ⟨(convert_key_table_or_identity "Key.space").1 (by decide),
   (convert_key_table_or_identity "not_a_known_key").2 (by decide)⟩

/-- C10: a Click action whose button string is none of Button.left,
Button.right, Button.middle is dispatched as a left-button click at the
recorded position (the `dict.get` default), not skipped and not an
error. -/
theorem handle_click_unknown_button_left (a : MacroAction) (x y : Int)
    (hpos : a.pos = some (x, y))
    (h1 : a.button ≠ "Button.left") (h2 : a.button ≠ "Button.right")
    (h3 : a.button ≠ "Button.middle") :
    MacroPlayer.handle_click a = .ok [Dispatch.click x y "left"] := by
  have hnk : ¬ pyDictHasKey MacroPlayer.button_map a.button := by
    intro h
    rcases List.mem_map.mp h with ⟨p, hp, hpk⟩
    simp only [MacroPlayer.button_map, List.mem_cons, List.not_mem_nil, or_false] at hp
    rcases hp with h | h | h <;> rw [h] at hpk <;> simp_all
  simp only [MacroPlayer.handle_click, hpos, pyDictGet_not_mem _ _ _ hnk]

/-- Witness for C10 at a concrete action with an x-button click. -/
theorem handle_click_unknown_button_left_witness :
    MacroPlayer.handle_click ⟨0, "click", "Button.x2", some (5, 7), none⟩
      = .ok [Dispatch.click 5 7 "left"] :=
  handle_click_unknown_button_left _ 5 7 rfl (by decide) (by decide) (by decide)

/-- C8 counterexample: the resume transition (Paused back to Active) of
the playback pause controller performs no refractory sleep at all, while
the pause transition (Active to Paused) is the one that sleeps three
seconds; the claimed refractory delay after leaving Paused does not
exist in the code. -/
theorem toggle_pause_refractory_cx :
    (MacroPlayer.toggle_pause true).2.sleepSeconds = 0 ∧
    (MacroPlayer.toggle_pause false).2.sleepSeconds = 3 := by
  constructor <;> rfl

/-- C8 amended: a toggle from Active to Paused sleeps three seconds in the
hotkey callback before returning (absorbing repeated bounces of the pause
hotkey right after pausing) and produces no notify/countdown; a toggle
from Paused to Active notifies the waiting playback thread and runs the
resume countdown, with no refractory sleep. -/
theorem toggle_pause_sleeps_on_pause :
    MacroPlayer.toggle_pause false = (true, ⟨false, false, 3⟩) ∧
    MacroPlayer.toggle_pause true = (false, ⟨true, true, 0⟩) := by
  constructor <;> rfl

/-- C4 counterexample: the escape test in `play_actions` compares the
untranslated `button` string with the sentinel.  The identifiers "esc"
and "Key.esc" both translate to the escape key's injection-domain
identifier "esc", yet an event carrying "esc" is dispatched and playback
completes, while an event carrying "Key.esc" aborts playback: the
translated identifier does not determine the escape behavior, refuting
the claim that the check happens after translation. -/
theorem play_actions_escape_untranslated_cx :
    MacroPlayer.convert_key "esc" = "esc" ∧
    MacroPlayer.convert_key "Key.esc" = "esc" ∧
    MacroPlayer.play_actions [⟨0, "keyDown", "esc", none, none⟩]
      = ⟨[Dispatch.keyDown "esc"], .completed⟩ ∧
    MacroPlayer.play_actions [⟨0, "keyDown", "Key.esc", none, none⟩]
      = ⟨[], .abortedByEscape⟩ := by
  refine ⟨rfl, rfl, rfl, rfl⟩

/-- C4 amended: when the playback loop reaches an event whose raw,
untranslated `button` string equals the sentinel "Key.esc", it stops
immediately with the escape-abort outcome, does not dispatch that event,
and the dispatched list stays exactly the commands accumulated for the
earlier events, in order. -/
theorem playLoop_escape_sentinel (a : MacroAction) (rest : List MacroAction)
    (acc : List Dispatch) (h : a.button = "Key.esc") :
    MacroPlayer.playLoop a rest acc = ⟨acc, .abortedByEscape⟩ := by
  cases rest <;> simp [MacroPlayer.playLoop, h]

/-- Witness for C4's amended theorem: the sentinel event aborts mid-list
with the earlier dispatches intact. -/
theorem playLoop_escape_sentinel_witness :
    MacroPlayer.playLoop ⟨2, "keyDown", "Key.esc", none, none⟩
      [⟨3, "keyDown", "a", none, none⟩] [Dispatch.keyDown "q"]
      = ⟨[Dispatch.keyDown "q"], .abortedByEscape⟩ :=
  playLoop_escape_sentinel _ _ _ rfl

/-- C5 counterexample: an action of unknown type is fatal (its event and
all later events are not dispatched), but the failure leaves
`play_actions` as a raised exception propagating to the caller (modelled
by the `raised` outcome; no caller in the repository catches it), not as
a result value: the second half of the claim fails on the code. -/
theorem play_actions_unknown_type_raises_cx :
    MacroPlayer.play_actions
      [⟨0, "bogus", "a", none, none⟩, ⟨1, "keyDown", "a", none, none⟩]
      = ⟨[], .raised "No action handler found for type: bogus"⟩ := by
  rfl

/-- C5 amended: an event whose `type` has no handler ends the session
immediately: nothing further is dispatched and the loop exits by raising
an exception carrying the unknown type, which propagates past
`play_actions` to its caller. -/
theorem playLoop_unknown_type_fatal (a : MacroAction) (rest : List MacroAction)
    (acc : List Dispatch) (h1 : a.button ≠ "Key.esc")
    (h2 : MacroPlayer.action_handlers a.type = none) :
    MacroPlayer.playLoop a rest acc
      = ⟨acc, .raised ("No action handler found for type: " ++ a.type)⟩ := by
  cases rest <;> simp [MacroPlayer.playLoop, h1, h2]

/-- Witness for C5's amended theorem at a concrete two-action list. -/
theorem playLoop_unknown_type_fatal_witness :
    MacroPlayer.playLoop ⟨0, "wiggle", "a", none, none⟩
      [⟨1, "keyDown", "a", none, none⟩] [Dispatch.keyUp "z"]
      = ⟨[Dispatch.keyUp "z"], .raised "No action handler found for type: wiggle"⟩ :=
  playLoop_unknown_type_fatal _ _ _ (by decide) (by rfl)

/-- Discard helper for `on_press`: while paused, for an ignored key, or
for a key already held, a press leaves the recorder state untouched. -/
theorem on_press_discard_helper (s : MacroRecorder.RecState) (k : String) (now : ℚ)
    (hk : k ≠ MacroRecorder.PAUSE_KEY)
    (h : s.is_paused = true ∨ k ∈ MacroRecorder.IGNORED_KEYS ∨ k ∈ s.pressed_keys) :
    MacroRecorder.on_press s k now = s := by
  have hc : (s.is_paused || decide (k ∈ MacroRecorder.IGNORED_KEYS)
      || decide (k ∈ s.pressed_keys)) = true := by
    rcases h with h | h | h <;> simp [h]
  simp [MacroRecorder.on_press, hk, hc]

/-- C6: a press event is discarded, with no record appended and no state
change at all, when the session is paused, the key is ignored, or the key
is already marked pressed; consequently a second press of the same key
with no intervening release leaves the state of the first press unchanged,
so the log gains exactly one KeyDown. -/
theorem on_press_discard_no_double_keydown (s : MacroRecorder.RecState) (k : String)
    (n1 n2 : ℚ) (hk : k ≠ MacroRecorder.PAUSE_KEY) :
    (s.is_paused = true ∨ k ∈ MacroRecorder.IGNORED_KEYS ∨ k ∈ s.pressed_keys →
      MacroRecorder.on_press s k n1 = s) ∧
    MacroRecorder.on_press (MacroRecorder.on_press s k n1) k n2
      = MacroRecorder.on_press s k n1 := by
  constructor
  · exact on_press_discard_helper s k n1 hk
  · by_cases hd : s.is_paused = true ∨ k ∈ MacroRecorder.IGNORED_KEYS ∨ k ∈ s.pressed_keys
    · rw [on_press_discard_helper s k n1 hk hd, on_press_discard_helper s k n2 hk hd]
    · push_neg at hd
      obtain ⟨hp, _, hpr⟩ := hd
      have hp2 : s.is_paused = false := by
        cases hps : s.is_paused
        · rfl
        · exact absurd hps hp
      have hacc : (MacroRecorder.on_press s k n1).pressed_keys = s.pressed_keys ++ [k] := by
        simp [MacroRecorder.on_press, MacroRecorder.record_event, MacroRecorder.IGNORED_KEYS,
          hk, hp2, hpr]
      exact on_press_discard_helper _ k n2 hk (Or.inr (Or.inr (by rw [hacc]; simp)))

/-- Witness for C6: a paused press is discarded, and a double press of x
from the fresh state records a single KeyDown. -/
theorem on_press_discard_no_double_keydown_witness :
    (MacroRecorder.on_press
        ⟨[], [], 0, true, some 1, 0, false⟩ "x" 2 = ⟨[], [], 0, true, some 1, 0, false⟩) ∧
    MacroRecorder.on_press (MacroRecorder.on_press (MacroRecorder.initState 0) "x" 1) "x" 2
      = MacroRecorder.on_press (MacroRecorder.initState 0) "x" 1 :=
  ⟨(on_press_discard_no_double_keydown ⟨[], [], 0, true, some 1, 0, false⟩ "x" 2 3
      (by decide)).1 (Or.inl rfl),
   (on_press_discard_no_double_keydown (MacroRecorder.initState 0) "x" 1 2 (by decide)).2⟩

/-- C2 counterexample: two presses at wall-clock times 1 and 3 from a
session started at 0 store times 1 and 3 — the pause-corrected elapsed
time since recording start — whereas the claimed rolling delta would
store 3 - 1 = 2 for the second event (the recorder keeps no
last-event-time reference at all: `RecState` has no such field). -/
theorem record_time_not_rolling_delta_cx :
    (MacroRecorder.run (MacroRecorder.initState 0)
        [MacroRecorder.RawEvent.press "a" 1, MacroRecorder.RawEvent.press "b" 3]).saved_inputs.map
        MacroAction.time = [1, 3]
    ∧ ((3 : ℚ) ≠ 3 - 1) := by
  constructor
  · have ha : ("a" = "Key.pause") = False := by simp
    have hb : ("b" = "Key.pause") = False := by simp
    have hba : ("b" = "a") = False := by simp
    norm_num [MacroRecorder.run, MacroRecorder.step, MacroRecorder.on_press,
      MacroRecorder.record_event, MacroRecorder.elapsed_time, MacroRecorder.initState,
      MacroRecorder.stringify_key, MacroRecorder.IGNORED_KEYS, MacroRecorder.PAUSE_KEY,
      ha, hb, hba]
  · norm_num

/-- C2 amended: every accepted event stores `now - start_time -
total_pause_time`, the pause-corrected elapsed time since recording start
(not a delta since the previous event); no last-event-time reference
exists or is reset. -/
theorem recorded_time_pause_corrected_since_start (s : MacroRecorder.RecState) (now : ℚ)
    (hp : s.is_paused = false) :
    (∀ k, k ≠ MacroRecorder.PAUSE_KEY → k ∉ s.pressed_keys →
      (MacroRecorder.on_press s k now).saved_inputs
        = s.saved_inputs
          ++ [⟨now - s.start_time - s.total_pause_time, EventType.KEY_DOWN, k, none, none⟩]) ∧
    (∀ k, k ≠ MacroRecorder.PAUSE_KEY →
      (MacroRecorder.on_release s k now).saved_inputs
        = s.saved_inputs
          ++ [⟨now - s.start_time - s.total_pause_time, EventType.KEY_UP, k, none, none⟩]) ∧
    (∀ (x y : Int) (b : String),
      (MacroRecorder.on_click s x y b false now).saved_inputs
        = s.saved_inputs
          ++ [⟨now - s.start_time - s.total_pause_time, EventType.CLICK, b, some (x, y), none⟩]) ∧
    (∀ (x y dx dy : Int),
      (MacroRecorder.on_scroll s x y dx dy now).saved_inputs
        = s.saved_inputs
          ++ [⟨now - s.start_time - s.total_pause_time, EventType.SCROLL, "mouse_wheel",
               some (x, y), some (dx, dy)⟩]) := by
  refine ⟨fun k hk hmem => ?_, fun k hk => ?_, fun x y b => ?_, fun x y dx dy => ?_⟩
  · simp [MacroRecorder.on_press, MacroRecorder.record_event, MacroRecorder.elapsed_time,
      MacroRecorder.stringify_key, MacroRecorder.IGNORED_KEYS, hk, hp, hmem]
  · by_cases hmem : k ∈ s.pressed_keys <;>
      simp [MacroRecorder.on_release, MacroRecorder.record_event, MacroRecorder.elapsed_time,
        MacroRecorder.stringify_key, MacroRecorder.IGNORED_KEYS, hk, hp, hmem,
        apply_ite MacroRecorder.RecState.saved_inputs]
  · simp [MacroRecorder.on_click, MacroRecorder.record_event, MacroRecorder.elapsed_time, hp]
  · simp [MacroRecorder.on_scroll, MacroRecorder.record_event, MacroRecorder.elapsed_time, hp]

/-- Witness for C2's amended theorem: a press at wall-clock 5 in a fresh
session started at 0 stores time 5 - 0 - 0. -/
theorem recorded_time_pause_corrected_since_start_witness :
    (MacroRecorder.on_press (MacroRecorder.initState 0) "a" 5).saved_inputs
      = [⟨5 - 0 - 0, EventType.KEY_DOWN, "a", none, none⟩] :=
  (recorded_time_pause_corrected_since_start (MacroRecorder.initState 0) 5 rfl).1
    "a" (by decide) (by decide)

/-- C3: a pause at `tp` followed by a resume at `tr` with no events in
between leaves the recorder unpaused, accumulates exactly the pause
duration `tr - tp` into `total_pause_time`, and shifts the pause-corrected
clock by the full pause duration: the next accepted event at wall-clock
`now` records exactly the time it would have recorded had the pause never
occurred and the event fired `tr - tp` earlier (equal active elapsed
time); pause intervals never enter recorded times. -/
theorem pause_resume_transparent (s : MacroRecorder.RecState) (tp tr now : ℚ)
    (hp : s.is_paused = false) :
    (MacroRecorder.toggle_pause (MacroRecorder.toggle_pause s tp) tr).is_paused = false ∧
    (MacroRecorder.toggle_pause (MacroRecorder.toggle_pause s tp) tr).total_pause_time
      = s.total_pause_time + (tr - tp) ∧
    MacroRecorder.elapsed_time (MacroRecorder.toggle_pause (MacroRecorder.toggle_pause s tp) tr) now
      = MacroRecorder.elapsed_time s (now - (tr - tp)) ∧
    (∀ k, k ≠ MacroRecorder.PAUSE_KEY → k ∉ s.pressed_keys →
      (MacroRecorder.on_press
          (MacroRecorder.toggle_pause (MacroRecorder.toggle_pause s tp) tr) k now).saved_inputs
        = s.saved_inputs
          ++ [⟨MacroRecorder.elapsed_time s (now - (tr - tp)), EventType.KEY_DOWN, k,
               none, none⟩]) := by
  have h2 : MacroRecorder.toggle_pause (MacroRecorder.toggle_pause s tp) tr
      = { s with total_pause_time := s.total_pause_time + (tr - tp),
                 pause_start_time := none, is_paused := false } := by
    simp [MacroRecorder.toggle_pause, hp]
  refine ⟨by rw [h2], by rw [h2], ?_, fun k hk hmem => ?_⟩
  · rw [h2]
    simp [MacroRecorder.elapsed_time, hp]
    try ring
  · rw [h2]
    simp [MacroRecorder.on_press, MacroRecorder.record_event, MacroRecorder.elapsed_time,
      MacroRecorder.stringify_key, MacroRecorder.IGNORED_KEYS, hk, hp, hmem]
    try ring

/-- Witness for C3 with a pause from 2 to 4 and the next press at 10. -/
theorem pause_resume_transparent_witness :
    MacroRecorder.elapsed_time
        (MacroRecorder.toggle_pause (MacroRecorder.toggle_pause (MacroRecorder.initState 0) 2) 4) 10
      = MacroRecorder.elapsed_time (MacroRecorder.initState 0) (10 - (4 - 2)) :=
  (pause_resume_transparent (MacroRecorder.initState 0) 2 4 10 rfl).2.2.1

/-- Termination of the slice-wise sleep loop: with fuel at least a
hundredfold of the remaining wait, the loop runs to completion and the
total slept time is exactly the requested elapsed time. -/
theorem sleepLoop_completes (f : Nat) : ∀ slept e : ℚ, slept ≤ e →
    (e - slept) * 100 ≤ (f : ℚ) → MacroPlayer.sleepLoop f slept e = some e := by
  induction f with
  | zero =>
    intro slept e hle hf
    push_cast at hf
    have heq : e = slept := le_antisymm (by linarith) hle
    simp only [MacroPlayer.sleepLoop]
    rw [if_neg (by rw [heq]; exact lt_irrefl slept), heq]
  | succ f ih =>
    intro slept e hle hf
    simp only [MacroPlayer.sleepLoop]
    by_cases hlt : slept < e
    · rw [if_pos hlt]
      by_cases hsmall : e - slept ≤ 1 / 100
      · rw [min_eq_right hsmall, show slept + (e - slept) = e by ring]
        exact ih e e le_rfl (by nlinarith)
      · push_neg at hsmall
        rw [min_eq_left (le_of_lt hsmall)]
        refine ih (slept + 1 / 100) e (by linarith) ?_
        push_cast at hf
        linarith
    · rw [if_neg hlt, le_antisymm hle (not_lt.mp hlt)]

/-- C9: the inter-event delay step raises `ValueError` exactly when the
next action's stored time is strictly below the current action's stored
time; when the difference is non-negative no error is raised, the sleep
loop terminates, and the step completes having slept the whole
difference. -/
theorem handle_delay_negative_iff (current_action next_action : MacroAction) :
    (next_action.time < current_action.time →
      MacroPlayer.handle_delay current_action next_action
        = .error "ValueError: Unexpected ordering between next_action and current_action.") ∧
    (current_action.time ≤ next_action.time →
      MacroPlayer.handle_delay current_action next_action
        = .ok (next_action.time - current_action.time)) := by
  constructor
  · intro h
    unfold MacroPlayer.handle_delay
    rw [if_pos (by linarith)]
  · intro h
    unfold MacroPlayer.handle_delay
    have he : (0 : ℚ) ≤ next_action.time - current_action.time := by linarith
    rw [if_neg (by linarith)]
    have hfuel : (next_action.time - current_action.time - 0) * 100
        ≤ ((MacroPlayer.delayFuel (next_action.time - current_action.time) : ℕ) : ℚ) := by
      unfold MacroPlayer.delayFuel
      push_cast
      have h1 : (next_action.time - current_action.time) * 100
          ≤ ((⌈(next_action.time - current_action.time) * 100⌉ : ℤ) : ℚ) := Int.le_ceil _
      have h2 : ((⌈(next_action.time - current_action.time) * 100⌉ : ℤ) : ℚ)
          ≤ ((⌈(next_action.time - current_action.time) * 100⌉.toNat : ℤ) : ℚ) := by
        exact_mod_cast Int.self_le_toNat _
      push_cast at h2
      linarith
    rw [sleepLoop_completes _ 0 _ he hfuel]

/-- Witness for C9: reversed timestamps raise, ordered timestamps sleep
the difference. -/
theorem handle_delay_negative_iff_witness :
    MacroPlayer.handle_delay ⟨2, "click", "b", none, none⟩ ⟨1, "click", "b", none, none⟩
      = .error "ValueError: Unexpected ordering between next_action and current_action." ∧
    MacroPlayer.handle_delay ⟨0, "click", "b", none, none⟩ ⟨1, "click", "b", none, none⟩
      = .ok (1 - 0) :=
  ⟨(handle_delay_negative_iff _ _).1 (by norm_num),
   (handle_delay_negative_iff _ _).2 (by norm_num)⟩

/-- A log has no dangling KeyDown when every KeyDown event is followed by
a strictly later KeyUp event with the same key identifier. -/
def danglingFree (log : List MacroAction) : Prop :=
  ∀ (i : ℕ) (e : MacroAction), log[i]? = some e → e.type = EventType.KEY_DOWN →
    ∃ (j : ℕ) (e2 : MacroAction), i < j ∧ log[j]? = some e2
      ∧ e2.type = EventType.KEY_UP ∧ e2.button = e.button

/-- Invariant tying the log to the held-key set: every KeyDown event is
either matched by a later KeyUp or its key is still in `pressed`. -/
def logOk (log : List MacroAction) (pressed : List String) : Prop :=
  ∀ (i : ℕ) (e : MacroAction), log[i]? = some e → e.type = EventType.KEY_DOWN →
    (∃ (j : ℕ) (e2 : MacroAction), i < j ∧ log[j]? = some e2
      ∧ e2.type = EventType.KEY_UP ∧ e2.button = e.button)
    ∨ e.button ∈ pressed

/-- Recorder-state invariant preserved by every listener callback: the log
is `logOk` for the held set, the pause key is never held, and the held
set has no duplicates. -/
def StateOk (s : MacroRecorder.RecState) : Prop :=
  logOk s.saved_inputs s.pressed_keys
    ∧ MacroRecorder.PAUSE_KEY ∉ s.pressed_keys
    ∧ s.pressed_keys.Nodup

theorem logOk_mono {log : List MacroAction} {p q : List String}
    (hpq : ∀ b, b ∈ p → b ∈ q) (h : logOk log p) : logOk log q := by
  intro i e hi ht
  rcases h i e hi ht with hj | hmem
  · exact Or.inl hj
  · exact Or.inr (hpq _ hmem)

theorem logOk_append {log : List MacroAction} {p : List String} (e : MacroAction)
    (h : logOk log p) (he : e.type = EventType.KEY_DOWN → e.button ∈ p) :
    logOk (log ++ [e]) p := by
  intro i x hx ht
  by_cases hi : i < log.length
  · rw [List.getElem?_append, if_pos hi] at hx
    rcases h i x hx ht with ⟨j, e2, hij, hj, ht2, hb⟩ | hmem
    · refine Or.inl ⟨j, e2, hij, ?_, ht2, hb⟩
      have hjlt : j < log.length := (List.getElem?_eq_some.mp hj).1
      rw [List.getElem?_append, if_pos hjlt]
      exact hj
    · exact Or.inr hmem
  · rw [List.getElem?_append_right (Nat.le_of_not_lt hi)] at hx
    cases hd : i - log.length with
    | zero =>
      rw [hd] at hx
      have hx2 : x = e := by simpa using hx.symm
      subst hx2
      exact Or.inr (he ht)
    | succ n =>
      rw [hd] at hx
      simp at hx

theorem logOk_keyup {log : List MacroAction} {p : List String} (t : ℚ) (k : String)
    (h : logOk log p) :
    logOk (log ++ [⟨t, EventType.KEY_UP, k, none, none⟩]) (p.erase k) := by
  intro i x hx ht
  by_cases hi : i < log.length
  · rw [List.getElem?_append, if_pos hi] at hx
    rcases h i x hx ht with ⟨j, e2, hij, hj, ht2, hb⟩ | hmem
    · refine Or.inl ⟨j, e2, hij, ?_, ht2, hb⟩
      have hjlt : j < log.length := (List.getElem?_eq_some.mp hj).1
      rw [List.getElem?_append, if_pos hjlt]
      exact hj
    · by_cases hbk : x.button = k
      · exact Or.inl ⟨log.length, ⟨t, EventType.KEY_UP, k, none, none⟩, hi,
          List.getElem?_concat_length log _, rfl, hbk.symm⟩
      · exact Or.inr ((List.mem_erase_of_ne hbk).mpr hmem)
  · rw [List.getElem?_append_right (Nat.le_of_not_lt hi)] at hx
    cases hd : i - log.length with
    | zero =>
      rw [hd] at hx
      have hx2 : x = ⟨t, EventType.KEY_UP, k, none, none⟩ := by simpa using hx.symm
      rw [hx2] at ht
      simp [EventType.KEY_UP, EventType.KEY_DOWN] at ht
    | succ n =>
      rw [hd] at hx
      simp at hx

/-- Discard branch of `on_release`: paused, ignored, or the pause key. -/
theorem on_release_discard (s : MacroRecorder.RecState) (k : String) (now : ℚ)
    (h : s.is_paused = true ∨ k ∈ MacroRecorder.IGNORED_KEYS ∨ k = MacroRecorder.PAUSE_KEY) :
    MacroRecorder.on_release s k now = s := by
  have hc : (s.is_paused || decide (k ∈ MacroRecorder.IGNORED_KEYS)
      || decide (k = MacroRecorder.PAUSE_KEY)) = true := by
    rcases h with h | h | h <;> simp [h]
  simp [MacroRecorder.on_release, hc]

/-- Active branch of `on_release` as one state update: the key leaves the
held set (a no-op when it was not held), one KeyUp event is appended, and
the exit flag is raised when the key is the exit key. -/
theorem on_release_active_eq (s : MacroRecorder.RecState) (k : String) (now : ℚ)
    (hp : s.is_paused = false) (hk : k ≠ MacroRecorder.PAUSE_KEY) :
    MacroRecorder.on_release s k now
      = { s with pressed_keys := s.pressed_keys.erase k,
                 saved_inputs := s.saved_inputs
                   ++ [⟨MacroRecorder.elapsed_time s now, EventType.KEY_UP, k, none, none⟩],
                 exited := if k = MacroRecorder.EXIT_KEY then true else s.exited } := by
  by_cases hexit : k = MacroRecorder.EXIT_KEY
  · subst hexit
    by_cases hmem : MacroRecorder.EXIT_KEY ∈ s.pressed_keys <;>
      simp [MacroRecorder.on_release, MacroRecorder.record_event, MacroRecorder.elapsed_time,
        MacroRecorder.stringify_key, MacroRecorder.IGNORED_KEYS, hp, hk, hmem,
        List.erase_of_not_mem]
  · by_cases hmem : k ∈ s.pressed_keys <;>
      simp [MacroRecorder.on_release, MacroRecorder.record_event, MacroRecorder.elapsed_time,
        MacroRecorder.stringify_key, MacroRecorder.IGNORED_KEYS, hp, hk, hexit, hmem,
        List.erase_of_not_mem]

theorem StateOk_on_press (s : MacroRecorder.RecState) (k : String) (now : ℚ)
    (h : StateOk s) : StateOk (MacroRecorder.on_press s k now) := by
  obtain ⟨hlog, hpk, hnd⟩ := h
  unfold MacroRecorder.on_press
  split
  · unfold MacroRecorder.toggle_pause
    split <;> exact ⟨hlog, hpk, hnd⟩
  · rename_i hk
    split
    · exact ⟨hlog, hpk, hnd⟩
    · rename_i hcond
      have hknp : k ∉ s.pressed_keys := fun hmem => hcond (by simp [hmem])
      refine ⟨?_, ?_, ?_⟩
      · refine logOk_append _ (logOk_mono (fun b hb => List.mem_append_left _ hb) hlog) ?_
        intro _
        simp [MacroRecorder.record_event, MacroRecorder.stringify_key]
      · intro hmem
        rcases List.mem_append.mp hmem with hmem | hmem
        · exact hpk hmem
        · rw [List.mem_singleton] at hmem
          exact hk hmem.symm
      · show (s.pressed_keys ++ [k]).Nodup
        rw [List.nodup_append]
        refine ⟨hnd, List.nodup_singleton _, ?_⟩
        intro b hb hb2
        rw [List.mem_singleton] at hb2
        rw [hb2] at hb
        exact hknp hb

theorem StateOk_on_release (s : MacroRecorder.RecState) (k : String) (now : ℚ)
    (h : StateOk s) : StateOk (MacroRecorder.on_release s k now) := by
  obtain ⟨hlog, hpk, hnd⟩ := h
  by_cases hp : s.is_paused = true
  · rw [on_release_discard s k now (Or.inl hp)]
    exact ⟨hlog, hpk, hnd⟩
  · by_cases hk : k = MacroRecorder.PAUSE_KEY
    · rw [on_release_discard s k now (Or.inr (Or.inr hk))]
      exact ⟨hlog, hpk, hnd⟩
    · have hp2 : s.is_paused = false := by simpa using hp
      rw [on_release_active_eq s k now hp2 hk]
      refine ⟨logOk_keyup _ _ hlog, ?_, hnd.erase k⟩
      intro hmem
      exact hpk (List.mem_of_mem_erase hmem)

theorem StateOk_on_click (s : MacroRecorder.RecState) (x y : Int) (b : String)
    (pressed : Bool) (now : ℚ) (h : StateOk s) :
    StateOk (MacroRecorder.on_click s x y b pressed now) := by
  obtain ⟨hlog, hpk, hnd⟩ := h
  unfold MacroRecorder.on_click
  split
  · exact ⟨hlog, hpk, hnd⟩
  · split
    · refine ⟨logOk_append _ hlog ?_, hpk, hnd⟩
      intro habs
      simp [EventType.CLICK, EventType.KEY_DOWN] at habs
    · exact ⟨hlog, hpk, hnd⟩

theorem StateOk_on_scroll (s : MacroRecorder.RecState) (x y dx dy : Int) (now : ℚ)
    (h : StateOk s) : StateOk (MacroRecorder.on_scroll s x y dx dy now) := by
  obtain ⟨hlog, hpk, hnd⟩ := h
  unfold MacroRecorder.on_scroll
  split
  · exact ⟨hlog, hpk, hnd⟩
  · refine ⟨logOk_append _ hlog ?_, hpk, hnd⟩
    intro habs
    simp [EventType.SCROLL, EventType.KEY_DOWN] at habs

theorem StateOk_step (s : MacroRecorder.RecState) (e : MacroRecorder.RawEvent)
    (h : StateOk s) : StateOk (MacroRecorder.step s e) := by
  cases e with
  | press k now => exact StateOk_on_press s k now h
  | release k now => exact StateOk_on_release s k now h
  | click x y b p now => exact StateOk_on_click s x y b p now h
  | scroll x y dx dy now => exact StateOk_on_scroll s x y dx dy now h

theorem StateOk_run (es : List MacroRecorder.RawEvent) :
    ∀ s, StateOk s → StateOk (MacroRecorder.run s es) := by
  induction es with
  | nil => intro s h; exact h
  | cons e es ih =>
    intro s h
    simp only [MacroRecorder.run]
    split
    · exact StateOk_step s e h
    · exact ih _ (StateOk_step s e h)

/-- Presses never touch the exit flag. -/
theorem on_press_exited (s : MacroRecorder.RecState) (k : String) (now : ℚ) :
    (MacroRecorder.on_press s k now).exited = s.exited := by
  unfold MacroRecorder.on_press MacroRecorder.toggle_pause MacroRecorder.record_event
  split
  · split <;> rfl
  · split <;> rfl

/-- Clicks never touch the exit flag. -/
theorem on_click_exited (s : MacroRecorder.RecState) (x y : Int) (b : String)
    (pressed : Bool) (now : ℚ) :
    (MacroRecorder.on_click s x y b pressed now).exited = s.exited := by
  unfold MacroRecorder.on_click MacroRecorder.record_event
  split
  · rfl
  · split <;> rfl

/-- Scrolls never touch the exit flag. -/
theorem on_scroll_exited (s : MacroRecorder.RecState) (x y dx dy : Int) (now : ℚ) :
    (MacroRecorder.on_scroll s x y dx dy now).exited = s.exited := by
  unfold MacroRecorder.on_scroll MacroRecorder.record_event
  split <;> rfl

/-- The only step that raises the exit flag is a non-paused release, which
leaves the recorder unpaused. -/
theorem step_exit (s : MacroRecorder.RecState) (e : MacroRecorder.RawEvent)
    (hex : s.exited = false) (h2 : (MacroRecorder.step s e).exited = true) :
    (MacroRecorder.step s e).is_paused = false := by
  cases e with
  | press k now =>
    exfalso
    simp only [MacroRecorder.step] at h2
    rw [on_press_exited, hex] at h2
    simp at h2
  | release k now =>
    simp only [MacroRecorder.step] at h2 ⊢
    by_cases hp : s.is_paused = true
    · rw [on_release_discard s k now (Or.inl hp), hex] at h2
      simp at h2
    · by_cases hk : k = MacroRecorder.PAUSE_KEY
      · rw [on_release_discard s k now (Or.inr (Or.inr hk)), hex] at h2
        simp at h2
      · have hp2 : s.is_paused = false := by simpa using hp
        rw [on_release_active_eq s k now hp2 hk]
        exact hp2
  | click x y b p now =>
    exfalso
    simp only [MacroRecorder.step] at h2
    rw [on_click_exited, hex] at h2
    simp at h2
  | scroll x y dx dy now =>
    exfalso
    simp only [MacroRecorder.step] at h2
    rw [on_scroll_exited, hex] at h2
    simp at h2

/-- A listener run that starts unexited and ends exited ends unpaused:
the exit is raised by a non-paused release and processing stops there. -/
theorem run_exit (es : List MacroRecorder.RawEvent) :
    ∀ s, s.exited = false → (MacroRecorder.run s es).exited = true →
      (MacroRecorder.run s es).is_paused = false := by
  induction es with
  | nil =>
    intro s hex h2
    simp only [MacroRecorder.run] at h2
    rw [hex] at h2
    simp at h2
  | cons e es ih =>
    intro s hex h2
    simp only [MacroRecorder.run] at h2 ⊢
    by_cases hs1 : (MacroRecorder.step s e).exited = true
    · rw [if_pos hs1] at h2 ⊢
      exact step_exit s e hex hs1
    · rw [if_neg hs1] at h2 ⊢
      exact ih _ (by simpa using hs1) h2

/-- Folding `on_release` over a snapshot of the held keys from an unpaused
state empties the held set while keeping the log invariant. -/
theorem cleanup_fold (now : ℚ) (l : List String) :
    ∀ s : MacroRecorder.RecState,
      s.is_paused = false → s.pressed_keys = l → l.Nodup →
      MacroRecorder.PAUSE_KEY ∉ l →
      logOk s.saved_inputs s.pressed_keys →
      logOk (l.foldl (fun st k => MacroRecorder.on_release st k now) s).saved_inputs
          (l.foldl (fun st k => MacroRecorder.on_release st k now) s).pressed_keys
      ∧ (l.foldl (fun st k => MacroRecorder.on_release st k now) s).pressed_keys = [] := by
  induction l with
  | nil =>
    intro s _ hpr _ _ hlog
    exact ⟨hlog, hpr⟩
  | cons k t ih =>
    intro s hp hpr hnd hpause hlog
    have hk : k ≠ MacroRecorder.PAUSE_KEY := by
      intro h
      exact hpause (by rw [← h]; exact List.mem_cons_self k t)
    rw [List.foldl_cons]
    have hre := on_release_active_eq s k now hp hk
    refine ih (MacroRecorder.on_release s k now) ?_ ?_ hnd.of_cons ?_ ?_
    · rw [hre]
      exact hp
    · rw [hre]
      show s.pressed_keys.erase k = t
      rw [hpr]
      exact List.erase_cons_head k t
    · intro h
      exact hpause (List.mem_cons_of_mem _ h)
    · rw [hre]
      exact logOk_keyup _ _ hlog

/-- C1: whenever a recording session terminates (the exit flag was raised
during the listener run, which makes `record()` return after the cleanup
pass), the emitted log has no dangling KeyDown: every key identifier in a
KeyDown event also appears in a strictly later KeyUp event, because
cleanup synthesizes the normal release path for each key still held. -/
theorem recorder_cleanup_no_dangling (start now : ℚ) (es : List MacroRecorder.RawEvent)
    (hexit : (MacroRecorder.run (MacroRecorder.initState start) es).exited = true) :
    danglingFree (MacroRecorder.cleanup
      (MacroRecorder.run (MacroRecorder.initState start) es) now).saved_inputs := by
  have hinit : StateOk (MacroRecorder.initState start) := by
    refine ⟨?_, ?_, List.nodup_nil⟩
    · intro i e hi ht
      simp [MacroRecorder.initState] at hi
    · simp [MacroRecorder.initState]
  obtain ⟨hlog, hpause, hnd⟩ := StateOk_run es _ hinit
  have hnp : (MacroRecorder.run (MacroRecorder.initState start) es).is_paused = false :=
    run_exit es _ rfl hexit
  have hcl := cleanup_fold now
    (MacroRecorder.run (MacroRecorder.initState start) es).pressed_keys
    (MacroRecorder.run (MacroRecorder.initState start) es) hnp rfl hnd hpause hlog
  intro i e hi ht
  rcases hcl.1 i e hi ht with hj | hmem
  · exact hj
  · rw [hcl.2] at hmem
    cases hmem

/-- Witness for C1: a session with one held key, terminated by an Esc
release; the claim hypothesis holds and the cleaned log is dangling-free. -/
theorem recorder_cleanup_no_dangling_witness :
    (MacroRecorder.run (MacroRecorder.initState 0)
        [MacroRecorder.RawEvent.press "a" 1,
         MacroRecorder.RawEvent.release "Key.esc" 2]).exited = true
    ∧ danglingFree (MacroRecorder.cleanup
        (MacroRecorder.run (MacroRecorder.initState 0)
          [MacroRecorder.RawEvent.press "a" 1,
           MacroRecorder.RawEvent.release "Key.esc" 2]) 3).saved_inputs :=
  ⟨by decide, recorder_cleanup_no_dangling 0 3 _ (by decide)⟩
